import Mathlib

/-!
Verification of the devai pipeline executor's scripting control-flow bridge
(`src/script/rhai_script/rhai_modules/rhai_devai.rs`) and the init file
scaffolding (`src/init/init_devai.rs`), as a shallow embedding in Lean.
-/

namespace Devai

/-- The rhai engine's dynamic value, restricted to the shapes crossing the
devai value bridge: unit (null), bool, int, string, array, object map with
string keys, plus a function-pointer constructor standing for the
script-native values outside the supported universe (the spec's Value
Bridge names those as the values whose conversion fails). -/
inductive Dynamic where
  | unit
  | bool (b : Bool)
  | int (n : Int)
  | str (s : String)
  | array (items : List Dynamic)
  | map (entries : List (String × Dynamic))
  | fnPtr (name : String)

/-- The host JSON-like value model (serde_json::Value with numbers taken as
integers): null, bool, number, string, ordered sequence, map with string
keys. -/
inductive Value where
  | null
  | bool (b : Bool)
  | num (n : Int)
  | str (s : String)
  | arr (items : List Value)
  | obj (entries : List (String × Value))

mutual

/-- Modelled from the spec: `value_to_dynamic` of `dynamic_helpers` (not under
src/), the Value Bridge direction `to_script`, a structural conversion of the
JSON-like host value into the script engine's value. -/
def value_to_dynamic : Value → Dynamic
  | .null => .unit
  | .bool b => .bool b
  | .num n => .int n
  | .str s => .str s
  | .arr items => .array (values_to_dynamics items)
  | .obj entries => .map (value_entries_to_dynamic entries)

def values_to_dynamics : List Value → List Dynamic
  | [] => []
  | v :: rest => value_to_dynamic v :: values_to_dynamics rest

def value_entries_to_dynamic : List (String × Value) → List (String × Dynamic)
  | [] => []
  | (k, v) :: rest => (k, value_to_dynamic v) :: value_entries_to_dynamic rest

end

/-- The error taxonomy. Modelled from the spec: the repository's `Error` enum
is not under src/; the spec's section 7 names the kinds, and the two
constructors the bridge raises in `rhai_devai.rs` map onto them
(`Error::TokioTryCurrent` is the AsyncBridgeError, the non-map rejection of
`before_all_response` is a ControlSignalMalformed). -/
inductive Error where
  | agentNotFound (cmd_agent : String)
  | scriptExecutionError (stage message : String)
  | serializationError (detail : String)
  | controlSignalMalformed (detail : String)
  | asyncBridgeError
  | other (message : String)

mutual

/-- Modelled from the spec: the Value Bridge direction `from_script` of
`dynamic_helpers` (not under src/): converts a script value back into the
host value model, failing with a SerializationError on a script-native value
outside the supported universe. -/
def dynamic_to_value : Dynamic → Except Error Value
  | .unit => .ok .null
  | .bool b => .ok (.bool b)
  | .int n => .ok (.num n)
  | .str s => .ok (.str s)
  | .array items => (dynamics_to_values items).bind fun vs => .ok (.arr vs)
  | .map entries => (dynamic_entries_to_value entries).bind fun es => .ok (.obj es)
  | .fnPtr name => .error (.serializationError name)

/-- Modelled from the spec: `dynamics_to_values` of `dynamic_helpers` (not
under src/), the list form used on the `inputs` argument of `run`. -/
def dynamics_to_values : List Dynamic → Except Error (List Value)
  | [] => .ok []
  | d :: rest =>
    (dynamic_to_value d).bind fun v =>
      (dynamics_to_values rest).bind fun vs => .ok (v :: vs)

def dynamic_entries_to_value : List (String × Dynamic) → Except Error (List (String × Value))
  | [] => .ok []
  | (k, d) :: rest =>
    (dynamic_to_value d).bind fun v =>
      (dynamic_entries_to_value rest).bind fun es => .ok ((k, v) :: es)

end

mutual

/-- A script value inside the supported universe: no function pointer (or
other foreign handle) anywhere inside it. -/
def Dynamic.supported : Dynamic → Bool
  | .unit => true
  | .bool _ => true
  | .int _ => true
  | .str _ => true
  | .array items => supportedList items
  | .map entries => supportedEntries entries
  | .fnPtr _ => false

def supportedList : List Dynamic → Bool
  | [] => true
  | d :: rest => d.supported && supportedList rest

def supportedEntries : List (String × Dynamic) → Bool
  | [] => true
  | (_, d) :: rest => d.supported && supportedEntries rest

end

mutual

theorem dynamic_to_value_value_to_dynamic :
    ∀ v : Value, dynamic_to_value (value_to_dynamic v) = .ok v
  | .null => rfl
  | .bool _ => rfl
  | .num _ => rfl
  | .str _ => rfl
  | .arr items => by
    simp [value_to_dynamic, dynamic_to_value, dynamics_to_values_values_to_dynamics items,
      Except.bind]
  | .obj entries => by
    simp [value_to_dynamic, dynamic_to_value, entries_roundtrip entries, Except.bind]

theorem dynamics_to_values_values_to_dynamics :
    ∀ items : List Value, dynamics_to_values (values_to_dynamics items) = .ok items
  | [] => rfl
  | v :: rest => by
    simp [values_to_dynamics, dynamics_to_values, dynamic_to_value_value_to_dynamic v,
      dynamics_to_values_values_to_dynamics rest, Except.bind]

theorem entries_roundtrip :
    ∀ entries : List (String × Value),
      dynamic_entries_to_value (value_entries_to_dynamic entries) = .ok entries
  | [] => rfl
  | (k, v) :: rest => by
    simp [value_entries_to_dynamic, dynamic_entries_to_value,
      dynamic_to_value_value_to_dynamic v, entries_roundtrip rest, Except.bind]

end

mutual

theorem value_to_dynamic_dynamic_to_value :
    ∀ d : Dynamic, d.supported = true →
      (dynamic_to_value d).map value_to_dynamic = .ok d
  | .unit, _ => rfl
  | .bool _, _ => rfl
  | .int _, _ => rfl
  | .str _, _ => rfl
  | .array items, h => by
    have hl := values_to_dynamics_dynamics_to_values items (by simpa [Dynamic.supported] using h)
    cases hval : dynamics_to_values items with
    | error e => rw [hval] at hl; simp [Except.map] at hl
    | ok vs =>
      rw [hval] at hl
      simp [Except.map] at hl
      simp [dynamic_to_value, hval, Except.bind, Except.map, value_to_dynamic, hl]
  | .map entries, h => by
    have hl := entries_from_to entries (by simpa [Dynamic.supported] using h)
    cases hval : dynamic_entries_to_value entries with
    | error e => rw [hval] at hl; simp [Except.map] at hl
    | ok es =>
      rw [hval] at hl
      simp [Except.map] at hl
      simp [dynamic_to_value, hval, Except.bind, Except.map, value_to_dynamic, hl]

theorem values_to_dynamics_dynamics_to_values :
    ∀ items : List Dynamic, supportedList items = true →
      (dynamics_to_values items).map values_to_dynamics = .ok items
  | [], _ => rfl
  | d :: rest, h => by
    have hd : d.supported = true := by
      have := h; simp [supportedList, Bool.and_eq_true] at this; exact this.1
    have hr : supportedList rest = true := by
      have := h; simp [supportedList, Bool.and_eq_true] at this; exact this.2
    have h1 := value_to_dynamic_dynamic_to_value d hd
    have h2 := values_to_dynamics_dynamics_to_values rest hr
    cases hv : dynamic_to_value d with
    | error e => rw [hv] at h1; simp [Except.map] at h1
    | ok v =>
      rw [hv] at h1; simp [Except.map] at h1
      cases hvs : dynamics_to_values rest with
      | error e => rw [hvs] at h2; simp [Except.map] at h2
      | ok vs =>
        rw [hvs] at h2; simp [Except.map] at h2
        simp [dynamics_to_values, hv, hvs, Except.bind, Except.map, values_to_dynamics, h1, h2]

theorem entries_from_to :
    ∀ entries : List (String × Dynamic), supportedEntries entries = true →
      (dynamic_entries_to_value entries).map value_entries_to_dynamic = .ok entries
  | [], _ => rfl
  | (k, d) :: rest, h => by
    have hd : d.supported = true := by
      have := h; simp [supportedEntries, Bool.and_eq_true] at this; exact this.1
    have hr : supportedEntries rest = true := by
      have := h; simp [supportedEntries, Bool.and_eq_true] at this; exact this.2
    have h1 := value_to_dynamic_dynamic_to_value d hd
    have h2 := entries_from_to rest hr
    cases hv : dynamic_to_value d with
    | error e => rw [hv] at h1; simp [Except.map] at h1
    | ok v =>
      rw [hv] at h1; simp [Except.map] at h1
      cases hes : dynamic_entries_to_value rest with
      | error e => rw [hes] at h2; simp [Except.map] at h2
      | ok es =>
        rw [hes] at h2; simp [Except.map] at h2
        simp [dynamic_entries_to_value, hv, hes, Except.bind, Except.map,
          value_entries_to_dynamic, h1, h2]

end

/-- Whether a dynamic value is an object map; `DynamicMap::from_dynamic` (not
under src/) succeeds exactly on such values. -/
def Dynamic.isMap : Dynamic → Bool
  | .map _ => true
  | _ => false

/-- Embeds `before_all_response` (rhai_devai.rs, lines 119-141): validates
that the argument is a map via `DynamicMap::from_dynamic`, then wraps it as
`{ "_devai_": { "kind": "BeforeAllResponse", "data": <data> } }`. -/
def before_all_response (data : Dynamic) : Except Error Dynamic :=
  match data with
  | .map entries =>
    .ok (.map [("_devai_",
      .map [("kind", .str "BeforeAllResponse"), ("data", .map entries)])])
  | _ => .error (.controlSignalMalformed "devai::before_all_response take a object map only")

/-- Embeds `skip` (rhai_devai.rs, lines 162-173): builds the JSON value
`{ "_devai_": { "kind": "Skip" } }` and converts it with `value_to_dynamic`. -/
def skip : Except Error Dynamic :=
  .ok (value_to_dynamic (.obj [("_devai_", .obj [("kind", .str "Skip")])]))

/-- Embeds `skip_with_reason` (rhai_devai.rs, lines 192-204): builds the JSON
value `{ "_devai_": { "kind": "Skip", "data": { "reason": <reason> } } }` and
converts it with `value_to_dynamic`. -/
def skip_with_reason (reason : String) : Except Error Dynamic :=
  .ok (value_to_dynamic (.obj [("_devai_",
    .obj [("kind", .str "Skip"), ("data", .obj [("reason", .str reason)])])]))

/-- The aggregate result of one agent run: per-input outputs (null when the
agent produced none) and the optional after-all value. -/
structure RunOutcome where
  outputs : Option (List Value)
  after_all : Option Value

/-- Serialization of a `RunOutcome` by `serde_json::to_value` (the struct is
not under src/; its two public fields are fixed by the module doc
`run(..) -> {outputs: null | any[], after_all: null | any}` and by
`test_rhai_devai_run_simple`). -/
def RunOutcome.toValue (o : RunOutcome) : Value :=
  .obj [("outputs", match o.outputs with | some xs => .arr xs | none => .null),
    ("after_all", match o.after_all with | some v => v | none => .null)]

/-- Modelled from the spec: an agent as the Recursive Invocation Bridge sees
it — `run_command_agent` (not under src/) drives the loaded agent over the
optional input set to a full `RunOutcome` (or a failure); the agent's
behaviour is the abstract function doing that. -/
structure Agent where
  run : Option (List Value) → Except Error RunOutcome

/-- Modelled from the spec: the `RuntimeContext` (not under src/) as
`run_with_inputs` consumes it — an agent registry reachable through the
directory context, and the availability of the two async handles the bridge
needs (`tokio::runtime::Handle::try_current` and `ctx.get_runtime()`). -/
structure RuntimeContext where
  agents : List (String × Agent)
  tokioHandleAvailable : Bool
  runtimeAvailable : Bool

def lookupAgent : List (String × Agent) → String → Option Agent
  | [], _ => none
  | (name, a) :: rest, cmd_agent =>
    if name == cmd_agent then some a else lookupAgent rest cmd_agent

/-- Modelled from the spec: `find_agent` (not under src/) resolves an agent
reference through the directory context, failing with AgentNotFound on a bad
reference. -/
def find_agent (cmd_agent : String) (ctx : RuntimeContext) : Except Error Agent :=
  match lookupAgent ctx.agents cmd_agent with
  | some a => .ok a
  | none => .error (.agentNotFound cmd_agent)

/-- `Option.map dynamics_to_values` then `.transpose()` as on line 78 of
rhai_devai.rs. -/
def transposeInputs : Option (List Dynamic) → Except Error (Option (List Value))
  | none => .ok none
  | some ds => (dynamics_to_values ds).bind fun vs => .ok (some vs)

/-- The observable outcome of one `run` call: the rhai-level result, plus
whether the nested `run_command_agent` task was started at all. -/
structure RunCall where
  result : Except Error Dynamic
  attempted : Bool

/-- Embeds `run_with_inputs` (rhai_devai.rs, lines 77-96) step by step:
convert the optional inputs, resolve the agent (`find_agent`), require the
current tokio handle (`Handle::try_current`, else `Error::TokioTryCurrent`
— the AsyncBridgeError), require the context runtime, block on
`run_command_agent`, serialize the outcome to JSON and convert it back with
`value_to_dynamic`. The `attempted` flag records whether the nested run was
started. -/
def run_with_inputs (ctx : RuntimeContext) (cmd_agent : String)
    (inputs : Option (List Dynamic)) : RunCall :=
  match transposeInputs inputs with
  | .error e => ⟨.error e, false⟩
  | .ok vals =>
    match find_agent cmd_agent ctx with
    | .error e => ⟨.error e, false⟩
    | .ok agent =>
      if ctx.tokioHandleAvailable then
        if ctx.runtimeAvailable then
          match agent.run vals with
          | .error e => ⟨.error e, true⟩
          | .ok outcome => ⟨.ok (value_to_dynamic outcome.toValue), true⟩
        else ⟨.error (.other "get_runtime"), false⟩
      else ⟨.error .asyncBridgeError, false⟩

def entriesLookup : List (String × Dynamic) → String → Option Dynamic
  | [], _ => none
  | (k, v) :: rest, key => if k == key then some v else entriesLookup rest key

/-- Field access on an object-map dynamic value. -/
def Dynamic.lookup (d : Dynamic) (key : String) : Option Dynamic :=
  match d with
  | .map entries => entriesLookup entries key
  | _ => none

def stringItems : List Dynamic → Option (List String)
  | [] => some []
  | .str s :: rest => (stringItems rest).map (s :: ·)
  | _ => none

/-- Reads a dynamic array of strings back as a string list (the test reads
`outputs` as `Vec<String>` this way). -/
def Dynamic.asStrings : Dynamic → Option (List String)
  | .array items => stringItems items
  | _ => none

/-- Modelled from the spec: the greeting the nested agent-hello agent emits
per input. The agent file `agent-hello.devai` is not under src/; the format
is fixed by the assertion of `test_rhai_devai_run_simple` (rhai_devai.rs,
lines 238-241), which expects `hello 'one' from agent-hello.devai`. -/
def agent_hello_output (input : String) : String :=
  "hello '" ++ input ++ "' from agent-hello.devai"

def Value.textContent : Value → String
  | .str s => s
  | _ => ""

/-- Modelled from the spec: the agent-hello agent (its .devai file is not
under src/) greets each input and produces no after-all value, per
`test_rhai_devai_run_simple`. -/
def agent_hello : Agent :=
  { run := fun inputs =>
      .ok { outputs := some ((inputs.getD []).map fun v =>
              Value.str (agent_hello_output v.textContent)),
            after_all := none } }

/-- A runtime context hosting agent-hello, with both async handles
available (the test runs on a 2-worker multi-thread scheduler). -/
def ctx_hello : RuntimeContext :=
  { agents := [("agent-hello", agent_hello)],
    tokioHandleAvailable := true,
    runtimeAvailable := true }

/-! ### Init file scaffolding (`src/init/init_devai.rs`)

A directory's files are an association list, name to content, read through
`fsLookup` (the first binding wins; a write prepends its binding, which is
exactly the overwrite-or-create semantics of `std::fs::write` under that
reading). -/

/-- Files of one directory: file name to content, first binding wins. -/
def FileSys := List (String × String)

def fsLookup : FileSys → String → Option String
  | [], _ => none
  | (k, v) :: rest, name => if k == name then some v else fsLookup rest name

/-- An embedded agent file shipped with the binary (`EmbeddedFile` of
`init/embedded_files`, not under src/: a name and a content). -/
structure EmbeddedFile where
  name : String
  content : String

/-- Whether a file name matches the glob `*.devai`: its characters end with
`.devai`. -/
def matchesDevai (name : String) : Bool :=
  ".devai".data.isSuffixOf name.data

/-- The names returned by `list_files` over the directory with the pattern
`*.devai`: the files of the directory whose name matches it. -/
def existingDevaiNames (dir : FileSys) : List String :=
  (dir.filter fun e => matchesDevai e.1).map Prod.fst

/-- Embeds `update_devai_files` (init_devai.rs, lines 88-101): collect the
existing `*.devai` file names once, then write each embedded file whose name
is not among them. -/
def update_devai_files (dir : FileSys) (embedded : List EmbeddedFile) : FileSys :=
  let existing_names := existingDevaiNames dir
  embedded.foldl
    (fun d e => if existing_names.contains e.name then d else (e.name, e.content) :: d)
    dir

/-- The file state `create_or_refresh_devai_files` touches: the three managed
directories it seeds with embedded files, the config file and the rhai doc
file (each directory and file resolved through `DevaiDir`, not under src/). -/
structure DevaiDirState where
  commandAgentDefaultDir : FileSys
  newTemplateCommandDefaultDir : FileSys
  newTemplateSoloDefaultDir : FileSys
  configToml : Option String
  rhaiDoc : Option String

/-- The three embedded file sets of `init/embedded_files` (not under src/). -/
structure EmbeddedSets where
  commandAgents : List EmbeddedFile
  newCommandAgents : List EmbeddedFile
  newSoloAgents : List EmbeddedFile

/-- Modelled from the spec: `migrate_devai_0_1_0_if_needed` is not under
src/ and version-migration of on-disk layouts is out of the spec's scope
(section 1); it is taken as leaving the managed files unchanged. -/
def migrate_devai_0_1_0_if_needed (st : DevaiDirState) : DevaiDirState := st

/-- Embeds `create_or_refresh_devai_files` (init_devai.rs, lines 33-84):
ensure the directories, run the migration, seed the three managed
directories via `update_devai_files`, and write the config file and the rhai
doc only when the path does not exist yet. -/
def create_or_refresh_devai_files (emb : EmbeddedSets)
    (configContent docContent : String) (st : DevaiDirState) : DevaiDirState :=
  let st := migrate_devai_0_1_0_if_needed st
  { commandAgentDefaultDir := update_devai_files st.commandAgentDefaultDir emb.commandAgents,
    newTemplateCommandDefaultDir :=
      update_devai_files st.newTemplateCommandDefaultDir emb.newCommandAgents,
    newTemplateSoloDefaultDir :=
      update_devai_files st.newTemplateSoloDefaultDir emb.newSoloAgents,
    configToml := some (st.configToml.getD configContent),
    rhaiDoc := some (st.rhaiDoc.getD docContent) }

/-- Embeds `init_devai_files` (init_devai.rs, lines 20-30) as far as files
are concerned: whichever directory context is loaded, the file effect is one
`create_or_refresh_devai_files` pass over that directory's state. -/
def init_devai_files (emb : EmbeddedSets) (configContent docContent : String)
    (st : DevaiDirState) : DevaiDirState :=
  create_or_refresh_devai_files emb configContent docContent st

/-! ### Claim theorems -/

/-- C2: for every argument value that is not a map, `before_all_response`
fails, and the failure is of kind ControlSignalMalformed; no non-map argument
produces a BeforeAllResponse shape. -/
theorem before_all_response_rejects_non_map :
    ∀ d : Dynamic, d.isMap = false →
      before_all_response d =
        .error (.controlSignalMalformed "devai::before_all_response take a object map only") := by
  intro d h
  cases d <;> first
    | rfl
    | simp [Dynamic.isMap] at h

theorem before_all_response_rejects_non_map_witness :
    (Dynamic.str "not-a-map").isMap = false ∧
      before_all_response (.str "not-a-map") =
        .error (.controlSignalMalformed "devai::before_all_response take a object map only") :=
  ⟨rfl, before_all_response_rejects_non_map (.str "not-a-map") rfl⟩

/-- C3: for every map argument, `before_all_response` succeeds and returns a
map whose single reserved key `_devai_` holds a map with kind
`BeforeAllResponse` and the caller's data map unchanged under `data`. -/
theorem before_all_response_on_map_shape :
    ∀ entries : List (String × Dynamic),
      before_all_response (.map entries) =
        .ok (.map [("_devai_",
          .map [("kind", .str "BeforeAllResponse"), ("data", .map entries)])]) :=
  fun _ => rfl

/-- C4: `skip()` returns the reserved Skip signal shape, and `skip(reason)`
returns the same shape with the exact reason string stored under
`data.reason`. -/
theorem skip_signal_shapes :
    skip = .ok (.map [("_devai_", .map [("kind", .str "Skip")])]) ∧
      ∀ reason : String,
        skip_with_reason reason =
          .ok (.map [("_devai_",
            .map [("kind", .str "Skip"), ("data", .map [("reason", .str reason)])])]) :=
  ⟨rfl, fun _ => rfl⟩

/-- C10: the zero-argument `skip()` produces an inner map that holds the kind
but no `data` key at all: the absence of a reason is encoded by the absence
of the `data` field. -/
theorem skip_inner_map_has_no_data_key :
    (skip.toOption.bind fun d => (d.lookup "_devai_").bind fun inner =>
      inner.lookup "kind") = some (.str "Skip") ∧
    (skip.toOption.bind fun d => (d.lookup "_devai_").bind fun inner =>
      inner.lookup "data") = none :=
  ⟨rfl, rfl⟩

/-- C1 (counterexample): `run("agent-hello", ["one","two"])` does not return
the outputs the spec scenario states — the greeting carries the agent file
name `agent-hello.devai`, not the bare `agent-hello`: the outputs read back
as strings are the `.devai` greetings, which differ from the claimed list. -/
theorem run_agent_hello_spec_greeting_false :
    ((run_with_inputs ctx_hello "agent-hello" (some [.str "one", .str "two"])).result.toOption.bind
        fun d => (d.lookup "outputs").bind Dynamic.asStrings) =
      some ["hello 'one' from agent-hello.devai", "hello 'two' from agent-hello.devai"] ∧
    (["hello 'one' from agent-hello.devai", "hello 'two' from agent-hello.devai"] ≠
      ["hello 'one' from agent-hello", "hello 'two' from agent-hello"]) :=
  ⟨rfl, by decide⟩

/-- C1 (amended): `run("agent-hello", ["one","two"])` returns a RunOutcome
whose outputs field equals
`["hello 'one' from agent-hello.devai", "hello 'two' from agent-hello.devai"]`
(and a null after_all), as `test_rhai_devai_run_simple` asserts. -/
theorem run_agent_hello_outputs :
    (run_with_inputs ctx_hello "agent-hello" (some [.str "one", .str "two"])).result =
      .ok (.map [("outputs",
          .array [.str "hello 'one' from agent-hello.devai",
            .str "hello 'two' from agent-hello.devai"]),
        ("after_all", .unit)]) :=
  rfl

/-- C5: every successful call of the scripting-exposed `run` returns, only
after the nested run has been executed to completion (`attempted` is true),
a map of shape `{ outputs: sequence-or-null, after_all: value-or-null }`. -/
theorem run_returns_outputs_after_all_shape :
    ∀ (ctx : RuntimeContext) (cmd_agent : String) (inputs : Option (List Dynamic))
      (d : Dynamic),
      (run_with_inputs ctx cmd_agent inputs).result = .ok d →
      (run_with_inputs ctx cmd_agent inputs).attempted = true ∧
      ∃ outsD aftD, d = .map [("outputs", outsD), ("after_all", aftD)] ∧
        (outsD = .unit ∨ ∃ items, outsD = .array items) := by
  intro ctx cmd_agent inputs d h
  cases hvals : transposeInputs inputs with
  | error e => simp [run_with_inputs, hvals] at h
  | ok vals =>
    cases hagent : find_agent cmd_agent ctx with
    | error e => simp [run_with_inputs, hvals, hagent] at h
    | ok agent =>
      by_cases hto : ctx.tokioHandleAvailable
      · by_cases hrt : ctx.runtimeAvailable
        · cases hrun : agent.run vals with
          | error e => simp [run_with_inputs, hvals, hagent, hto, hrt, hrun] at h
          | ok outcome =>
            refine ⟨by simp [run_with_inputs, hvals, hagent, hto, hrt, hrun], ?_⟩
            simp [run_with_inputs, hvals, hagent, hto, hrt, hrun] at h
            subst h
            cases houts : outcome.outputs with
            | none =>
              exact ⟨.unit, value_to_dynamic (match outcome.after_all with
                  | some v => v | none => Value.null),
                by simp [RunOutcome.toValue, houts, value_to_dynamic,
                  value_entries_to_dynamic],
                Or.inl rfl⟩
            | some xs =>
              exact ⟨.array (values_to_dynamics xs),
                value_to_dynamic (match outcome.after_all with
                  | some v => v | none => Value.null),
                by simp [RunOutcome.toValue, houts, value_to_dynamic,
                  value_entries_to_dynamic],
                Or.inr ⟨values_to_dynamics xs, rfl⟩⟩
        · simp [run_with_inputs, hvals, hagent, hto, hrt] at h
      · simp [run_with_inputs, hvals, hagent, hto] at h

theorem run_returns_outputs_after_all_shape_witness :
    (run_with_inputs ctx_hello "agent-hello" (some [.str "one"])).result =
      .ok (.map [("outputs", .array [.str "hello 'one' from agent-hello.devai"]),
        ("after_all", .unit)]) ∧
    ((run_with_inputs ctx_hello "agent-hello" (some [.str "one"])).attempted = true ∧
      ∃ outsD aftD,
        (Dynamic.map [("outputs", .array [.str "hello 'one' from agent-hello.devai"]),
          ("after_all", .unit)]) = .map [("outputs", outsD), ("after_all", aftD)] ∧
        (outsD = .unit ∨ ∃ items, outsD = .array items)) :=
  ⟨rfl, run_returns_outputs_after_all_shape ctx_hello "agent-hello" (some [.str "one"]) _ rfl⟩

/-- C6: with no asynchronous scheduler handle available in the current
context, the bridge never starts the nested run, and (for a call whose inputs
convert and whose agent reference resolves) the failure it signals is the
AsyncBridgeError (`Error::TokioTryCurrent`). -/
theorem run_without_scheduler_handle :
    ∀ (ctx : RuntimeContext) (cmd_agent : String) (inputs : Option (List Dynamic)),
      ctx.tokioHandleAvailable = false →
      (run_with_inputs ctx cmd_agent inputs).attempted = false ∧
      (∀ vals agent, transposeInputs inputs = .ok vals →
        find_agent cmd_agent ctx = .ok agent →
        (run_with_inputs ctx cmd_agent inputs).result = .error .asyncBridgeError) := by
  intro ctx cmd_agent inputs hto
  constructor
  · unfold run_with_inputs
    split
    · rfl
    · split
      · rfl
      · simp [hto]
  · intro vals agent hvals hagent
    unfold run_with_inputs
    simp [hvals, hagent, hto]

theorem run_without_scheduler_handle_witness :
    (RuntimeContext.tokioHandleAvailable
        ⟨[("agent-hello", agent_hello)], false, true⟩ = false) ∧
    (run_with_inputs ⟨[("agent-hello", agent_hello)], false, true⟩
        "agent-hello" none).attempted = false ∧
    (run_with_inputs ⟨[("agent-hello", agent_hello)], false, true⟩
        "agent-hello" none).result = .error .asyncBridgeError := by
  have h := run_without_scheduler_handle
    ⟨[("agent-hello", agent_hello)], false, true⟩ "agent-hello" none rfl
  exact ⟨rfl, h.1, h.2 none agent_hello rfl rfl⟩

/-- C8: agent resolution precedes the scheduler-handle check: a call whose
inputs convert but whose agent reference does not resolve fails with
AgentNotFound without attempting the run, whatever the handle availability;
and a result of AsyncBridgeError implies the agent reference resolved. -/
theorem agent_resolution_precedes_handle_check :
    ∀ (ctx : RuntimeContext) (cmd_agent : String) (inputs : Option (List Dynamic))
      (vals : Option (List Value)),
      transposeInputs inputs = .ok vals →
      (lookupAgent ctx.agents cmd_agent = none →
        run_with_inputs ctx cmd_agent inputs = ⟨.error (.agentNotFound cmd_agent), false⟩) ∧
      ((run_with_inputs ctx cmd_agent inputs).result = .error .asyncBridgeError →
        ∃ agent, find_agent cmd_agent ctx = .ok agent) := by
  intro ctx cmd_agent inputs vals hvals
  constructor
  · intro hnone
    unfold run_with_inputs
    simp [hvals, find_agent, hnone]
  · intro hres
    unfold run_with_inputs at hres
    simp [hvals] at hres
    cases hagent : find_agent cmd_agent ctx with
    | error e =>
      rw [hagent] at hres
      simp at hres
      subst hres
      exfalso
      unfold find_agent at hagent
      split at hagent
      · simp at hagent
      · simp at hagent
    | ok agent => exact ⟨agent, rfl⟩

theorem agent_resolution_precedes_handle_check_witness :
    transposeInputs none = .ok none ∧
    lookupAgent ([] : List (String × Agent)) "missing" = none ∧
    run_with_inputs ⟨[], false, false⟩ "missing" none =
      ⟨.error (.agentNotFound "missing"), false⟩ := by
  have h := agent_resolution_precedes_handle_check ⟨[], false, false⟩ "missing" none none rfl
  exact ⟨rfl, rfl, h.1 rfl⟩

theorem fsLookup_mem_existing :
    ∀ (dir : FileSys) (name content : String),
      fsLookup dir name = some content → matchesDevai name = true →
      (existingDevaiNames dir).contains name = true := by
  intro dir name content h hsuf
  induction dir with
  | nil => simp [fsLookup] at h
  | cons e rest ih =>
    obtain ⟨k, v⟩ := e
    by_cases hk : k == name
    · have hke : k = name := eq_of_beq hk
      subst hke
      simp [existingDevaiNames, hsuf]
    · simp [fsLookup, hk] at h
      have := ih h
      by_cases hdev : matchesDevai k <;>
        simp [existingDevaiNames, hdev] at this ⊢ <;>
        simp [this]

theorem foldl_write_preserves :
    ∀ (embedded : List EmbeddedFile) (d : FileSys) (ns : List String)
      (name content : String),
      ns.contains name = true → fsLookup d name = some content →
      fsLookup (embedded.foldl
        (fun d e => if ns.contains e.name then d else (e.name, e.content) :: d) d)
        name = some content := by
  intro embedded
  induction embedded with
  | nil => intro d ns name content _ h; simpa using h
  | cons e rest ih =>
    intro d ns name content hns h
    simp only [List.foldl_cons]
    by_cases he : ns.contains e.name
    · rw [if_pos he]; exact ih d ns name content hns h
    · rw [if_neg he]
      refine ih _ ns name content hns ?_
      have hne : (e.name == name) = false := by
        by_cases hb : e.name == name
        · exact absurd (eq_of_beq hb ▸ hns) (by simpa using he)
        · simpa using hb
      simpa [fsLookup, hne] using h

theorem update_devai_files_preserves :
    ∀ (dir : FileSys) (embedded : List EmbeddedFile) (name content : String),
      matchesDevai name = true → fsLookup dir name = some content →
      fsLookup (update_devai_files dir embedded) name = some content := by
  intro dir embedded name content hsuf h
  exact foldl_write_preserves embedded dir (existingDevaiNames dir) name content
    (fsLookup_mem_existing dir name content h hsuf) h

/-- C9: `init_devai_files` never overwrites an existing file: a `*.devai`
agent file already present in any of the three managed directories keeps its
content, and so do an existing `config.toml` and an existing rhai doc file;
only absent names are created. -/
theorem init_devai_files_preserves_existing :
    ∀ (emb : EmbeddedSets) (configContent docContent : String)
      (st : DevaiDirState) (name content : String),
      matchesDevai name = true →
      (fsLookup st.commandAgentDefaultDir name = some content →
        fsLookup (init_devai_files emb configContent docContent st).commandAgentDefaultDir
          name = some content) ∧
      (fsLookup st.newTemplateCommandDefaultDir name = some content →
        fsLookup (init_devai_files emb configContent docContent st).newTemplateCommandDefaultDir
          name = some content) ∧
      (fsLookup st.newTemplateSoloDefaultDir name = some content →
        fsLookup (init_devai_files emb configContent docContent st).newTemplateSoloDefaultDir
          name = some content) ∧
      (∀ c, st.configToml = some c →
        (init_devai_files emb configContent docContent st).configToml = some c) ∧
      (∀ c, st.rhaiDoc = some c →
        (init_devai_files emb configContent docContent st).rhaiDoc = some c) := by
  intro emb configContent docContent st name content hsuf
  refine ⟨fun h => ?_, fun h => ?_, fun h => ?_, fun c hc => ?_, fun c hc => ?_⟩
  · exact update_devai_files_preserves _ _ _ _ hsuf h
  · exact update_devai_files_preserves _ _ _ _ hsuf h
  · exact update_devai_files_preserves _ _ _ _ hsuf h
  · simp [init_devai_files, create_or_refresh_devai_files,
      migrate_devai_0_1_0_if_needed, hc]
  · simp [init_devai_files, create_or_refresh_devai_files,
      migrate_devai_0_1_0_if_needed, hc]

theorem init_devai_files_preserves_existing_witness :
    (matchesDevai "demo.devai" = true) ∧
    fsLookup (init_devai_files ⟨[⟨"demo.devai", "embedded"⟩], [], []⟩ "cfg" "doc"
        ⟨[("demo.devai", "edited")], [], [], some "my config", none⟩).commandAgentDefaultDir
      "demo.devai" = some "edited" ∧
    (init_devai_files ⟨[⟨"demo.devai", "embedded"⟩], [], []⟩ "cfg" "doc"
        ⟨[("demo.devai", "edited")], [], [], some "my config", none⟩).configToml =
      some "my config" := by
  have h := init_devai_files_preserves_existing ⟨[⟨"demo.devai", "embedded"⟩], [], []⟩
    "cfg" "doc" ⟨[("demo.devai", "edited")], [], [], some "my config", none⟩
    "demo.devai" "edited" (by decide)
  exact ⟨by decide, h.1 rfl, h.2.2.2.1 "my config" rfl⟩

/-- C7: the Value Bridge conversions are mutual inverses over the supported
value universe: `from_script` after `to_script` is the identity on every host
value (so every value a nested run returns round-trips exactly into the
calling script's value universe), and `to_script` after `from_script` is the
identity on every supported script value. -/
theorem value_bridge_mutual_inverses :
    ∀ (v : Value) (d : Dynamic),
      dynamic_to_value (value_to_dynamic v) = .ok v ∧
      (d.supported = true → (dynamic_to_value d).map value_to_dynamic = .ok d) :=
  fun v d => ⟨dynamic_to_value_value_to_dynamic v, value_to_dynamic_dynamic_to_value d⟩

theorem value_bridge_mutual_inverses_witness :
    (Dynamic.map [("k", .array [.int 1, .unit, .str "s"])]).supported = true ∧
    dynamic_to_value (value_to_dynamic (.obj [("k", .arr [.num 1, .null])])) =
      .ok (.obj [("k", .arr [.num 1, .null])]) ∧
    (dynamic_to_value (Dynamic.map [("k", .array [.int 1, .unit, .str "s"])])).map
        value_to_dynamic =
      .ok (.map [("k", .array [.int 1, .unit, .str "s"])]) := by
  have h := value_bridge_mutual_inverses (.obj [("k", .arr [.num 1, .null])])
    (.map [("k", .array [.int 1, .unit, .str "s"])])
  exact ⟨rfl, h.1, h.2 rfl⟩

end Devai
